import Mathlib

/-!
Verification of the OCR-ANN-P1 training pipeline (`src/modules/dataset.py`,
`src/modules/train_models.py`, `src/modules/utils.py`) against its
natural-language specification.  Python code is shallowly embedded: pure
functions become Lean functions, Python exceptions become `Except PyError`,
tensors become (nested) lists of exact numbers tagged with a dtype where the
dtype is relevant, and the file system becomes an association list from paths
to stored records.
-/

namespace OCRANN

/-- The Python exceptions that the embedded code can raise. -/
inductive PyError where
  | attributeError : PyError
  | fileExistsError : PyError
  | fileNotFoundError : PyError
  | keyError : PyError
  | indexError : PyError
  | valueError : PyError
deriving DecidableEq, Repr

/-! ### Python string primitives

`str.count`, `str.replace` and `format(n, "0kd")`, used by
`TrainModel.save_checkpoint` (train_models.py lines 112-114), modelled on
`List Char`. -/

/-- Python `s.count("#")` for the single-character needle `"#"`: the number of
occurrences of the character in the string. -/
def pyCountChar (s : List Char) (c : Char) : Nat :=
  s.count c

/-- Python `s.replace(old, new)` when `old` is the empty string:
`"abc".replace("", "X") = "XaXbXcX"` (the replacement is inserted before every
character and at the end). -/
def pyReplaceEmpty (new : List Char) : List Char → List Char
  | [] => new
  | c :: rest => new ++ c :: pyReplaceEmpty new rest

/-- Python `s.replace(old, new)` for nonempty `old`: replace all
non-overlapping occurrences, scanning left to right.  The first argument is
the number of characters still to be skipped because they were consumed by
the occurrence just replaced (this phrasing keeps the recursion structural). -/
def pyReplaceAux (old new : List Char) : Nat → List Char → List Char
  | _, [] => []
  | k + 1, _ :: rest => pyReplaceAux old new k rest
  | 0, c :: rest =>
    if old.isPrefixOf (c :: rest) then
      new ++ pyReplaceAux old new (old.length - 1) rest
    else
      c :: pyReplaceAux old new 0 rest

/-- Python `s.replace(old, new)`. -/
def pyReplace (s old new : List Char) : List Char :=
  match old with
  | [] => pyReplaceEmpty new s
  | _ :: _ => pyReplaceAux old new 0 s

/-- Python `format(n, f"0{k}d")` for a nonnegative `n`: the decimal digits of
`n`, left-padded with `'0'` up to width `k`. -/
def pyFormat0d (n : Nat) (k : Nat) : List Char :=
  let s := (Nat.repr n).toList
  List.replicate (k - s.length) '0' ++ s

/-- The checkpoint file-name resolution of `TrainModel.save_checkpoint`
(train_models.py lines 112-114):
`hash_count = file_name.count("#")` followed by
`file_name.replace(hash_count * "#", format(index, f"0{hash_count}d"))`. -/
def resolveCheckpointName (pattern : List Char) (index : Nat) : List Char :=
  let hash_count := pyCountChar pattern '#'
  pyReplace pattern (List.replicate hash_count '#') (pyFormat0d index hash_count)

/-! ### `TrainModel.__init__` (train_models.py lines 11-39) -/

/-- The `training_params` sub-dictionary of `model_params` that
`TrainModel.__init__` reads. -/
structure TrainingParams where
  device : String
  batch_size : Nat
  epoch_numbers : Nat
  min_opt_lr : ℚ
  checkpoint_dir : List Char
  checkpoint_name : List Char

/-- Reading a Python instance attribute: access to an attribute that has not
been assigned yet raises `AttributeError`. -/
def getattrOpt {α : Type} : Option α → Except PyError α
  | none => .error .attributeError
  | some v => .ok v

/-- The scalar fields that `TrainModel.__init__` assigns. -/
structure TrainModelFields where
  show_log_step : Nat
  last_epoch_index : Nat
  optimizer_lr : ℚ
  max_epoch : Nat
  lr : ℚ
  checkpoint_dir : List Char
  save_check_step : Nat

/-- Embeds `TrainModel.__init__` (train_models.py lines 11-39), keeping the
source's statement order.  The model, dataset and dataloader constructions
(lines 21-30) assign no field relevant to the claims and are elided.  The
crucial point is that line 35, `optim.Adam(self.model.parameters(),
lr=self.lr)`, reads `self.lr`, while `self.lr` is first assigned only on
line 37. -/
def trainModelInit (params : TrainingParams) (show_log_steps save_check_step : Nat)
    (lr : Option ℚ) : Except PyError TrainModelFields := do
  -- line 31: self.show_log_step = show_log_steps
  let show_log_step := show_log_steps
  -- line 34: self.last_epoch_index = 0
  let last_epoch_index := 0
  -- line 35: self.optimizer = optim.Adam(self.model.parameters(), lr=self.lr);
  -- the attribute `self.lr` has not been assigned at this point
  let self_lr_before : Option ℚ := none
  let optimizer_lr ← getattrOpt self_lr_before
  -- line 36: self.max_epoch = self.model_params["training_params"]["epoch_numbers"]
  let max_epoch := params.epoch_numbers
  -- line 37: self.lr = ...["min_opt_lr"] if lr == None else lr
  let self_lr := match lr with
    | none => params.min_opt_lr
    | some v => v
  -- lines 38-39: self.checkpoint_dir, self.save_check_step
  .ok { show_log_step := show_log_step, last_epoch_index := last_epoch_index,
        optimizer_lr := optimizer_lr, max_epoch := max_epoch, lr := self_lr,
        checkpoint_dir := params.checkpoint_dir, save_check_step := save_check_step }

/-! ### Checkpointing and the epoch loop
(train_models.py lines 41-51, 86-126) -/

/-- The record that `save_checkpoint` serializes (train_models.py lines
119-124).  The model, optimizer and loss `state_dict`s are opaque payloads of
types `M`, `O`, `L`. -/
structure Checkpoint (M O L : Type) where
  last_epoch_index : Nat
  model_state_dict : M
  optimizer_state_dict : O
  loss_state_dict : L

/-- The fields of a constructed `TrainModel` that `fit`, `save_checkpoint`
and `load_checkpoint` use. -/
structure TrainModel (M O L : Type) where
  model : M
  optimizer : O
  loss_fn : L
  last_epoch_index : Nat
  max_epoch : Nat
  checkpoint_dir : List Char
  checkpoint_name : List Char

/-- The checkpoint directory as seen by the orchestrator: a map from file
paths to stored checkpoint records, most recent binding first. -/
abbrev FileSystem (M O L : Type) := List (List Char × Checkpoint M O L)

/-- `os.path.join(dir, name)` for a directory path without a trailing
separator and a relative file name. -/
def pathJoin (dir name : List Char) : List Char := dir ++ '/' :: name

/-- `TrainModel.save_checkpoint` (train_models.py lines 101-126): resolve the
configured `checkpoint_name` pattern with the epoch index, raise
`FileExistsError` if a file already exists at the target path (leaving the
file system untouched), otherwise write the checkpoint record and return the
path. -/
def TrainModel.save_checkpoint {M O L : Type} (self : TrainModel M O L)
    (fs : FileSystem M O L) (index : Nat) :
    Except PyError (List Char) × FileSystem M O L :=
  let file_name := resolveCheckpointName self.checkpoint_name index
  let file_path := pathJoin self.checkpoint_dir file_name
  if (fs.lookup file_path).isSome then
    (.error .fileExistsError, fs)
  else
    (.ok file_path,
     (file_path,
      { last_epoch_index := index, model_state_dict := self.model,
        optimizer_state_dict := self.optimizer,
        loss_state_dict := self.loss_fn }) :: fs)

/-- `TrainModel.load_checkpoint` (train_models.py lines 86-99): read the
record stored at `checkpoint_dir/file_name`, set `last_epoch_index` to one
past the saved epoch index, and restore the model, optimizer and loss-module
states. -/
def TrainModel.load_checkpoint {M O L : Type} (self : TrainModel M O L)
    (fs : FileSystem M O L) (file_name : List Char) :
    Except PyError (TrainModel M O L) :=
  match fs.lookup (pathJoin self.checkpoint_dir file_name) with
  | none => .error .fileNotFoundError
  | some checkpoint =>
    .ok { self with
          last_epoch_index := checkpoint.last_epoch_index + 1,
          model := checkpoint.model_state_dict,
          optimizer := checkpoint.optimizer_state_dict,
          loss_fn := checkpoint.loss_state_dict }

/-- Python `range(a, b)`. -/
def pyRange (a b : Nat) : List Nat := List.range' a (b - a)

/-- The epoch indices visited by the outer loop of `TrainModel.fit`
(train_models.py line 51): `for epoch in range(self.last_epoch_index,
self.max_epoch)`. -/
def TrainModel.fitEpochs {M O L : Type} (self : TrainModel M O L) : List Nat :=
  pyRange self.last_epoch_index self.max_epoch

/-! ### `OCRDataset` (dataset.py lines 9-38) -/

/-- `OCRDataset`.  `create_pair` stands for the external stochastic pair
generator `CreateImgGtPair.create_pair` (a stream indexed by invocation
count); `transforms` is the optional transform chain, `none` when falsy. -/
structure OCRDataset (S : Type) where
  create_pair : Nat → S
  transforms : Option (S → S)
  image_numbers : Nat

/-- `OCRDataset.__len__` (dataset.py lines 22-26): returns `image_numbers`. -/
def OCRDataset.len {S : Type} (self : OCRDataset S) : Nat := self.image_numbers

/-- `OCRDataset.__getitem__` (dataset.py lines 28-38).  The body never reads
`data_id` and performs no bounds check, so it cannot raise `IndexError`: it
generates a fresh pair from the external generator and applies the transform
chain when one is configured. -/
def OCRDataset.getitem {S : Type} (self : OCRDataset S) (data_id : Int) :
    Except PyError S :=
  let pair := self.create_pair 0
  match self.transforms with
  | some t => .ok (t pair)
  | none => .ok pair

/-! ### Batch collation (dataset.py lines 152-169) -/

/-- Torch dtypes relevant to the collator. -/
inductive DType where
  | float32 : DType
  | int64 : DType
deriving DecidableEq, Repr

/-- A 1-D tensor: a dtype tag and its values.  The values that reach the
collator are integer vocabulary codes (small, hence exactly representable in
`float32`), so they are carried as integers regardless of the dtype tag. -/
structure Tensor1 where
  dtype : DType
  data : List Int
deriving DecidableEq, Repr

/-- A 2-D tensor with a dtype tag. -/
structure Tensor2 where
  dtype : DType
  rows : List (List Int)
deriving DecidableEq, Repr

/-- Python `max(data["gt"].shape[0] for data in batch)` for a nonempty
batch. -/
def longestGt (batch : List Tensor1) : Nat :=
  (batch.map (fun data => data.data.length)).foldl max 0

/-- Tensor slice assignment `row[: len(src)] = src` (for `len src ≤ len
row`): overwrite the prefix, keep the tail. -/
def sliceAssign (row src : List Int) : List Int :=
  src ++ row.drop src.length

/-- The ground-truth half of `dataloader_collate_fn` (dataset.py lines
152-162): `longest_gt = max(...)` raises `ValueError` on an empty batch;
`gts = torch.zeros((len(batch), longest_gt))` allocates a tensor with torch's
default dtype `float32`; then `gts[i][: len(data["gt"])] = data["gt"]` copies
each sample's codes into the prefix of its row.  (The image half of the
collator, lines 164-168, is not referenced by any claim about `targets` and
is not modelled.) -/
def dataloader_collate_fn_gts (batch : List Tensor1) : Except PyError Tensor2 :=
  match batch with
  | [] => .error .valueError
  | _ :: _ =>
    let longest_gt := longestGt batch
    let zeroRow := List.replicate longest_gt (0 : Int)
    .ok { dtype := DType.float32,
          rows := batch.map (fun data => sliceAssign zeroRow data.data) }

/-! ### Character codec (utils.py lines 10-87)

A Python dict is an association list in which `List.lookup` finds the most
recent binding; `d[k] = v` prepends. -/

/-- The `char_to_int_map` built by `CodingString.__init__` (utils.py lines
28-30): one `(line[0], int(line[2:5]))` binding per line of the map file,
later lines shadowing earlier ones.  `entries` is the parsed file content. -/
def charToIntMap (entries : List (Char × Int)) : List (Char × Int) :=
  entries.foldl (fun d e => (e.1, e.2) :: d) []

/-- The `int_to_char_map` built by `DecodeString.__init__` (utils.py lines
66-69): one `(int(line[2:5]), line[0])` binding per line, later lines
shadowing earlier ones. -/
def intToCharMap (entries : List (Char × Int)) : List (Int × Char) :=
  entries.foldl (fun d e => (e.2, e.1) :: d) []

/-- `CodingString.__call__` on a ground-truth string (utils.py lines 35-54):
map every character through `char_to_int_map`, in order; a character absent
from the map raises `KeyError`. -/
def codingString (map : List (Char × Int)) : List Char → Except PyError (List Int)
  | [] => .ok []
  | c :: rest =>
    match map.lookup c with
    | none => .error .keyError
    | some k =>
      match codingString map rest with
      | .error e => .error e
      | .ok ks => .ok (k :: ks)

/-- `DecodeString.__call__` (utils.py lines 74-87): skip codes equal to `0`
(the blank), look every other code up in `int_to_char_map` and append the
character; a nonzero code absent from the map raises `KeyError`. -/
def decodeString (map : List (Int × Char)) : List Int → Except PyError (List Char)
  | [] => .ok []
  | k :: rest =>
    if k ≠ 0 then
      match map.lookup k with
      | none => .error .keyError
      | some c =>
        match decodeString map rest with
        | .error e => .error e
        | .ok cs => .ok (c :: cs)
    else
      decodeString map rest

/-! ### The CTC loss wrapper (train_models.py lines 138-178) -/

/-- `torch.count_nonzero(targets, axis=1)` for one row. -/
def countNonzeroRow (row : List Int) : Nat :=
  (row.filter (fun k => k ≠ 0)).length

/-- `preds.permute(2, 0, 1)` on a `(batch, classes, seq_len)` tensor: the
`(seq_len, batch, classes)` tensor with `out[t][n][c] = preds[n][c][t]`. -/
def permute201 (preds : List (List (List ℚ))) (seq_len : Nat) :
    List (List (List ℚ)) :=
  (List.range seq_len).map (fun t => preds.map (fun mat => mat.map (fun row => row.getD t 0)))

/-- The number of adjacent equal pairs in a label sequence. -/
def adjRepeats : List Int → Nat
  | [] => 0
  | [_] => 0
  | a :: b :: rest => (if a = b then 1 else 0) + adjRepeats (b :: rest)

/-- Modelled from the documented semantics of the per-sample CTC negative
log-likelihood inside `torch.nn.functional.ctc_loss` (the torch library call
at train_models.py line 178 — not repository code), for target sequences that
do not contain the blank label: the loss is infinite (`none`) exactly when no
alignment of `input_length` frames can produce the target, i.e. when
`input_length < target_length + (number of adjacent repeated labels)`; it is
finite otherwise.  The finite value depends on the logits and the target; it
is abstracted by the parameter `nll`, so the theorems below hold for every
`nll`. -/
def ctcSampleLoss (nll : List (List ℚ) → List Int → ℚ)
    (sample_log_probs : List (List ℚ)) (target : List Int)
    (input_length : Nat) : Option ℚ :=
  if input_length < target.length + adjRepeats target then
    none
  else
    some (nll sample_log_probs target)

/-- Modelled from the documented semantics of `torch.nn.functional.ctc_loss`
with the default `reduction="mean"` (the torch library call at
train_models.py line 178 — not repository code).  Sample `i` uses the target
prefix `targets[i][: target_lengths[i]]` and `pred_lengths[i]` input frames;
`zero_infinity = true` replaces each infinite per-sample loss by `0`; the
mean reduction divides each loss by `max(target_length, 1)` and averages.
The result is `none` (non-finite) iff some per-sample loss stayed
infinite.  The `blank` label only renumbers classes, which the abstract
`nll` absorbs; it is therefore not consumed here.
`ctcContrib` is the per-sample contribution: the (possibly clamped)
per-sample loss together with the sample's target length. -/
def ctcContrib (nll : List (List ℚ) → List Int → ℚ)
    (log_probs : List (List (List ℚ))) (targets : List (List Int))
    (pred_lengths target_lengths : List Nat) (zero_infinity : Bool)
    (i : Nat) : Option ℚ × Nat :=
  let sample_lp := log_probs.map (fun frame => frame.getD i [])
  let tlen := target_lengths.getD i 0
  let target := (targets.getD i []).take tlen
  let loss := ctcSampleLoss nll sample_lp target (pred_lengths.getD i 0)
  (if zero_infinity then some (loss.getD 0) else loss, tlen)

def ctc_loss (nll : List (List ℚ) → List Int → ℚ)
    (log_probs : List (List (List ℚ))) (targets : List (List Int))
    (pred_lengths target_lengths : List Nat) (blank : Int)
    (zero_infinity : Bool) : Option ℚ :=
  let contribs := (List.range targets.length).map
    (ctcContrib nll log_probs targets pred_lengths target_lengths zero_infinity)
  if contribs.all (fun p => p.1.isSome) then
    some ((contribs.map (fun p => p.1.getD 0 / ((max p.2 1 : Nat) : ℚ))).sum /
      (targets.length : ℚ))
  else
    none

/-- `CTCLoss.forward` (train_models.py lines 156-178): read the shape
`(batch, classes, seq_len)` from `preds`, permute the predictions to
`(seq_len, batch, classes)`, use the constant `seq_len` as every prediction
length and the per-row nonzero count as every target length, and call
`F.ctc_loss` with the configured blank and `zero_infinity=True`. -/
def CTCLoss.forward (nll : List (List ℚ) → List Int → ℚ) (blank : Int)
    (preds : List (List (List ℚ))) (targets : List (List Int)) : Option ℚ :=
  let batch := preds.length
  let seq_len := ((preds.getD 0 []).getD 0 []).length
  let preds2 := permute201 preds seq_len
  let pred_lengths := List.replicate batch seq_len
  let target_lengths := targets.map countNonzeroRow
  ctc_loss nll preds2 targets pred_lengths target_lengths blank true

/-! ## Helper lemmas -/

theorem lookup_mem {α β : Type} [BEq α] [LawfulBEq α] :
    ∀ {l : List (α × β)} {a : α} {b : β}, l.lookup a = some b → (a, b) ∈ l := by
  intro l
  induction l with
  | nil => intro a b h; simp [List.lookup] at h
  | cons e rest ih =>
    intro a b h
    rw [show e = (e.1, e.2) from rfl] at h ⊢
    simp only [List.lookup] at h
    by_cases hae : a = e.1
    · subst hae
      simp at h
      simp [h]
    · have : (a == e.1) = false := beq_eq_false_iff_ne.mpr hae
      rw [this] at h
      exact List.mem_cons_of_mem _ (ih h)

theorem lookup_isSome_of_mem {α β : Type} [BEq α] [LawfulBEq α] :
    ∀ {l : List (α × β)} {a : α} {b : β}, (a, b) ∈ l → (l.lookup a).isSome = true := by
  intro l
  induction l with
  | nil => intro a b h; simp at h
  | cons e rest ih =>
    intro a b h
    rw [show e = (e.1, e.2) from rfl]
    simp only [List.lookup]
    by_cases hae : a = e.1
    · subst hae; simp
    · have hb : (a == e.1) = false := beq_eq_false_iff_ne.mpr hae
      rw [hb]
      rcases List.mem_cons.mp h with heq | hmem
      · exact absurd (congrArg Prod.fst heq) hae
      · exact ih hmem

theorem foldl_mono_max (l : List Nat) : ∀ (a x : Nat), x ∈ l → x ≤ l.foldl max a := by
  induction l with
  | nil => intro a x h; simp at h
  | cons y rest ih =>
    intro a x h
    rcases List.mem_cons.mp h with rfl | hmem
    · calc x ≤ max a x := le_max_right a x
        _ ≤ rest.foldl max (max a x) := by
          clear ih h
          induction rest generalizing a x with
          | nil => simp
          | cons z r ihr =>
            simp only [List.foldl_cons]
            calc max a x ≤ max (max a x) z := le_max_left _ _
              _ ≤ r.foldl max (max (max a x) z) := ihr _ _
    · exact ih _ _ hmem

/-! ## C1 -/

/-- C1: the claim says every `TrainModel` construction succeeds with the
optimizer learning rate equal to the caller-supplied `lr` or to the
configured `min_opt_lr`.  The code instead reads `self.lr` on line 35 before
assigning it on line 37, so every construction raises `AttributeError`: this
theorem evaluates the embedded `__init__` and shows it fails on all inputs. -/
theorem trainModelInit_always_attributeError
    (params : TrainingParams) (show_log_steps save_check_step : Nat) (lr : Option ℚ) :
    trainModelInit params show_log_steps save_check_step lr =
      .error PyError.attributeError := rfl

/-! ## C2 -/

/-- C2, counterexample to the claim as stated: on a dataset configured with
`image_numbers = 2`, indexing at the out-of-range index `5` does not fail
with an index error — `__getitem__` ignores the index and returns a freshly
generated pair. -/
theorem getitem_out_of_range_succeeds :
    OCRDataset.len (⟨fun _ => (37 : Int), none, 2⟩ : OCRDataset Int) = 2 ∧
    OCRDataset.getitem (⟨fun _ => (37 : Int), none, 2⟩ : OCRDataset Int) 5 =
      .ok 37 := ⟨rfl, rfl⟩

/-- C2 (amended): `__len__` returns the configured `image_numbers` and
indexing succeeds for every index in `[0, image_count)` — indeed for every
index whatsoever, since `__getitem__` never reads the index and performs no
bounds check; no index ever fails with an index error. -/
theorem getitem_total_ignores_index {S : Type} (ds : OCRDataset S) (i : Int) :
    (∃ s, ds.getitem i = .ok s) ∧ ds.len = ds.image_numbers := by
  refine ⟨?_, rfl⟩
  unfold OCRDataset.getitem
  cases h : ds.transforms with
  | none => exact ⟨ds.create_pair 0, rfl⟩
  | some t => exact ⟨t (ds.create_pair 0), rfl⟩

/-! ## C3 -/

/-- C3: a checkpoint file, once written, is never overwritten — any
`save_checkpoint` call leaves every existing file binding intact, and a call
whose resolved target path already exists fails with `FileExistsError` and
leaves the whole checkpoint directory unchanged. -/
theorem save_checkpoint_write_once {M O L : Type} (tm : TrainModel M O L)
    (fs : FileSystem M O L) (i : Nat) (fp p : List Char) (c : Checkpoint M O L)
    (hfp : fp = pathJoin tm.checkpoint_dir (resolveCheckpointName tm.checkpoint_name i))
    (h : fs.lookup p = some c) :
    ((tm.save_checkpoint fs i).2).lookup p = some c ∧
    (fp = p →
      (tm.save_checkpoint fs i).1 = .error PyError.fileExistsError ∧
      (tm.save_checkpoint fs i).2 = fs) := by
  have hred : tm.save_checkpoint fs i =
      if (fs.lookup fp).isSome then
        (.error PyError.fileExistsError, fs)
      else
        (.ok fp,
         (fp, { last_epoch_index := i, model_state_dict := tm.model,
                optimizer_state_dict := tm.optimizer,
                loss_state_dict := tm.loss_fn }) :: fs) := by
    rw [hfp]; rfl
  by_cases hex : (fs.lookup fp).isSome
  · rw [hred, if_pos hex]
    exact ⟨h, fun _ => ⟨rfl, rfl⟩⟩
  · rw [hred, if_neg hex]
    constructor
    · have hne : p ≠ fp := by
        intro heq
        rw [heq] at h
        rw [h] at hex
        simp at hex
      simp only [List.lookup]
      rw [beq_eq_false_iff_ne.mpr hne]
      exact h
    · intro heq
      rw [heq] at hex
      rw [h] at hex
      simp at hex

/-- C3 witness. -/
theorem save_checkpoint_write_once_witness :
    ((TrainModel.save_checkpoint (M := Int) (O := Int) (L := Int)
        ⟨1, 2, 3, 0, 9, "d".toList, "m-##.pt".toList⟩
        [("d/m-07.pt".toList, ⟨7, 1, 2, 3⟩)] 7).2).lookup "d/m-07.pt".toList =
      some ⟨7, 1, 2, 3⟩ := by
  exact (save_checkpoint_write_once _ _ 7 "d/m-07.pt".toList _ _ (by rfl) (by rfl)).1

/-! ## C4 -/

/-- C4: saving a checkpoint at epoch `e` and loading it back restores the
model, optimizer and loss-module states, sets the orchestrator's next epoch
to `e + 1`, and the subsequent `fit` loop visits exactly the epochs
`e + 1, …, max_epoch - 1` — never an already-completed epoch `≤ e`. -/
theorem checkpoint_save_load_roundtrip {M O L : Type} (tm : TrainModel M O L)
    (fs fs' : FileSystem M O L) (e : Nat) (fp : List Char)
    (h : tm.save_checkpoint fs e = (.ok fp, fs')) :
    ∃ tm', tm.load_checkpoint fs' (resolveCheckpointName tm.checkpoint_name e) = .ok tm' ∧
      tm'.model = tm.model ∧ tm'.optimizer = tm.optimizer ∧ tm'.loss_fn = tm.loss_fn ∧
      tm'.last_epoch_index = e + 1 ∧
      tm'.fitEpochs = pyRange (e + 1) tm.max_epoch ∧
      ∀ k ∈ tm'.fitEpochs, e < k := by
  unfold TrainModel.save_checkpoint at h
  by_cases hex : ((fs.lookup
      (pathJoin tm.checkpoint_dir (resolveCheckpointName tm.checkpoint_name e))).isSome)
  · rw [if_pos hex] at h
    exact absurd (congrArg Prod.fst h) (by simp)
  · rw [if_neg hex] at h
    have hfs' : fs' = (pathJoin tm.checkpoint_dir (resolveCheckpointName tm.checkpoint_name e),
        { last_epoch_index := e, model_state_dict := tm.model,
          optimizer_state_dict := tm.optimizer,
          loss_state_dict := tm.loss_fn }) :: fs := (congrArg Prod.snd h).symm
    refine ⟨{ tm with last_epoch_index := e + 1 }, ?_, rfl, rfl, rfl, rfl, rfl, ?_⟩
    · unfold TrainModel.load_checkpoint
      rw [hfs']
      simp only [List.lookup, beq_self_eq_true]
    · intro k hk
      unfold TrainModel.fitEpochs pyRange at hk
      dsimp only at hk
      have := (List.mem_range'_1).mp hk
      omega

/-- C4 witness. -/
theorem checkpoint_save_load_roundtrip_witness :
    ∃ tm', TrainModel.load_checkpoint (M := Int) (O := Int) (L := Int)
        ⟨1, 2, 3, 0, 9, "d".toList, "m-##.pt".toList⟩
        [("d/m-07.pt".toList, ⟨7, 1, 2, 3⟩)]
        (resolveCheckpointName "m-##.pt".toList 7) = .ok tm' ∧
      tm'.model = 1 ∧ tm'.optimizer = 2 ∧ tm'.loss_fn = 3 ∧
      tm'.last_epoch_index = 7 + 1 ∧
      tm'.fitEpochs = pyRange (7 + 1) 9 ∧
      ∀ k ∈ tm'.fitEpochs, 7 < k := by
  exact checkpoint_save_load_roundtrip
    ⟨1, 2, 3, 0, 9, "d".toList, "m-##.pt".toList⟩ [] _ 7 _ (by rfl)

/-! ## C5 -/

/-- C5: for every nonempty batch, the collated `targets` tensor has one row
per sample, every row has length `L_max` (the maximum ground-truth length),
and row `i` is sample `i`'s ground-truth codes in order followed by zero
padding. -/
theorem collate_gts_shape_and_padding (batch : List Tensor1) (h : batch ≠ []) :
    ∃ t, dataloader_collate_fn_gts batch = .ok t ∧
      t.rows.length = batch.length ∧
      t.rows = batch.map
        (fun s => s.data ++ List.replicate (longestGt batch - s.data.length) 0) ∧
      ∀ row ∈ t.rows, row.length = longestGt batch := by
  have hle : ∀ s ∈ batch, s.data.length ≤ longestGt batch := by
    intro s hs
    exact foldl_mono_max _ 0 _ (List.mem_map_of_mem _ hs)
  have hrows : ∀ (b : Tensor1) (bs : List Tensor1), batch = b :: bs →
      (b :: bs).map (fun data =>
        sliceAssign (List.replicate (longestGt batch) 0) data.data) =
      batch.map (fun s => s.data ++ List.replicate (longestGt batch - s.data.length) 0) := by
    intro b bs hb
    rw [← hb]
    apply List.map_congr_left
    intro s hs
    unfold sliceAssign
    rw [List.drop_replicate]
  cases batch with
  | nil => exact absurd rfl h
  | cons b bs =>
    refine ⟨_, rfl, by simp, hrows b bs rfl, ?_⟩
    intro row hrow
    obtain ⟨s, hs, rfl⟩ := List.mem_map.mp hrow
    have := hle s hs
    simp only [sliceAssign, List.length_append, List.length_drop, List.length_replicate]
    omega

/-- C5 witness: ground truths `[1,2]` ("ab") and `[1,2,3]` ("abc") collate to
`[[1,2,0],[1,2,3]]` with both rows of length `L_max = 3`. -/
theorem collate_gts_shape_and_padding_witness :
    dataloader_collate_fn_gts [⟨DType.int64, [1, 2]⟩, ⟨DType.int64, [1, 2, 3]⟩] =
      .ok ⟨DType.float32, [[1, 2, 0], [1, 2, 3]]⟩ ∧
    (∃ t, dataloader_collate_fn_gts [⟨DType.int64, [1, 2]⟩, ⟨DType.int64, [1, 2, 3]⟩] =
        .ok t ∧
      ∀ row ∈ t.rows,
        row.length = longestGt [⟨DType.int64, [1, 2]⟩, ⟨DType.int64, [1, 2, 3]⟩]) := by
  refine ⟨rfl, ?_⟩
  obtain ⟨t, h1, _, _, h4⟩ := collate_gts_shape_and_padding
    [⟨DType.int64, [1, 2]⟩, ⟨DType.int64, [1, 2, 3]⟩] (by simp)
  exact ⟨t, h1, h4⟩

/-! ## C9 -/

/-- C9: the collator allocates the targets tensor with `torch.zeros`' default
floating-point dtype, so for every nonempty batch of integer (`int64`)
ground-truth tensors the collated `targets` tensor has dtype `float32`. -/
theorem collate_gts_dtype_float32 (batch : List Tensor1) (h : batch ≠ [])
    (hint : ∀ s ∈ batch, s.dtype = DType.int64) :
    ∃ t, dataloader_collate_fn_gts batch = .ok t ∧ t.dtype = DType.float32 := by
  cases batch with
  | nil => exact absurd rfl h
  | cons b bs => exact ⟨_, rfl, rfl⟩

/-- C9 witness. -/
theorem collate_gts_dtype_float32_witness :
    ∃ t, dataloader_collate_fn_gts [⟨DType.int64, [1, 2]⟩] = .ok t ∧
      t.dtype = DType.float32 :=
  collate_gts_dtype_float32 [⟨DType.int64, [1, 2]⟩] (by simp) (by simp)

/-! ## C7 -/

theorem isPrefixOf_cons_ne (a c : Char) (tl xs : List Char) (h : a ≠ c) :
    (a :: tl).isPrefixOf (c :: xs) = false := by
  simp [List.isPrefixOf, h]

theorem pyReplaceAux_skip (old new : List Char) :
    ∀ (l1 l2 : List Char),
      pyReplaceAux old new l1.length (l1 ++ l2) = pyReplaceAux old new 0 l2 := by
  intro l1
  induction l1 with
  | nil => intro l2; rfl
  | cons c rest ih =>
    intro l2
    simp only [List.length_cons, List.cons_append, pyReplaceAux]
    exact ih l2

theorem pyReplaceAux_no_hash (new : List Char) (tl : List Char) :
    ∀ (pre l : List Char), '#' ∉ pre →
      pyReplaceAux ('#' :: tl) new 0 (pre ++ l) =
        pre ++ pyReplaceAux ('#' :: tl) new 0 l := by
  intro pre
  induction pre with
  | nil => intro l _; rfl
  | cons c rest ih =>
    intro l hpre
    have hc : '#' ≠ c := fun hh => hpre (hh ▸ List.mem_cons_self c rest)
    have hrest : '#' ∉ rest := fun hh => hpre (List.mem_cons_of_mem c hh)
    simp only [List.cons_append, pyReplaceAux, isPrefixOf_cons_ne '#' c tl _ hc,
      Bool.false_eq_true, if_false]
    exact congrArg (fun x => c :: x) (ih l hrest)

theorem pyReplaceAux_tail_id (new tl suf : List Char) (hsuf : '#' ∉ suf) :
    pyReplaceAux ('#' :: tl) new 0 suf = suf := by
  have h := pyReplaceAux_no_hash new tl suf [] hsuf
  simpa [pyReplaceAux] using h

theorem pyReplaceAux_at_run (k' : Nat) (new suf : List Char) (hsuf : '#' ∉ suf) :
    pyReplaceAux ('#' :: List.replicate k' '#') new 0
      ('#' :: (List.replicate k' '#' ++ suf)) = new ++ suf := by
  have hmatch : ('#' :: List.replicate k' '#').isPrefixOf
      ('#' :: (List.replicate k' '#' ++ suf)) = true := by
    rw [show '#' :: (List.replicate k' '#' ++ suf) =
        ('#' :: List.replicate k' '#') ++ suf from rfl]
    exact List.isPrefixOf_iff_prefix.mpr (List.prefix_append _ suf)
  rw [pyReplaceAux, if_pos hmatch]
  congr 1
  have hl : ('#' :: List.replicate k' '#').length - 1 = (List.replicate k' '#').length := by
    simp
  rw [hl, pyReplaceAux_skip, pyReplaceAux_tail_id _ _ _ hsuf]

/-- C7: when the configured checkpoint pattern consists of a prefix without
`'#'`, a contiguous run of `k ≥ 1` `'#'` characters, and a suffix without
`'#'`, `save_checkpoint`'s filename resolution replaces the run with the
decimal representation of the epoch index left-padded with `'0'` to the run's
width `k`. -/
theorem resolveCheckpointName_fills_hash_run (pre suf : List Char) (k index : Nat)
    (hpre : '#' ∉ pre) (hsuf : '#' ∉ suf) (hk : 1 ≤ k) :
    resolveCheckpointName (pre ++ List.replicate k '#' ++ suf) index =
      pre ++ (List.replicate (k - (Nat.repr index).toList.length) '0' ++
        (Nat.repr index).toList) ++ suf := by
  obtain ⟨k', rfl⟩ : ∃ k', k = k' + 1 := ⟨k - 1, by omega⟩
  have hcount : pyCountChar (pre ++ List.replicate (k' + 1) '#' ++ suf) '#' = k' + 1 := by
    unfold pyCountChar
    rw [List.count_append, List.count_append, List.count_eq_zero.mpr hpre,
      List.count_eq_zero.mpr hsuf, List.count_replicate_self]
    omega
  have hstart : resolveCheckpointName (pre ++ List.replicate (k' + 1) '#' ++ suf) index =
      pyReplace (pre ++ List.replicate (k' + 1) '#' ++ suf)
        (List.replicate (pyCountChar (pre ++ List.replicate (k' + 1) '#' ++ suf) '#') '#')
        (pyFormat0d index
          (pyCountChar (pre ++ List.replicate (k' + 1) '#' ++ suf) '#')) := rfl
  rw [hstart, hcount]
  rw [show List.replicate (k' + 1) '#' = '#' :: List.replicate k' '#' from
    List.replicate_succ '#' k']
  show pyReplaceAux ('#' :: List.replicate k' '#') (pyFormat0d index (k' + 1)) 0
      (pre ++ ('#' :: List.replicate k' '#') ++ suf) = _
  rw [List.append_assoc, pyReplaceAux_no_hash _ _ pre _ hpre, List.cons_append,
    pyReplaceAux_at_run _ _ _ hsuf]
  simp [pyFormat0d, List.append_assoc]

/-- C7 witness: pattern `model-##.pt` with epoch `7` resolves to
`model-07.pt`. -/
theorem resolveCheckpointName_fills_hash_run_witness :
    resolveCheckpointName ("model-##.pt".toList) 7 = "model-07.pt".toList :=
  (resolveCheckpointName_fills_hash_run ("model-".toList) (".pt".toList) 2 7
    (by decide) (by decide) (by decide)).trans (by decide)

/-! ## C6 -/

theorem ctcContrib_isSome (nll : List (List ℚ) → List Int → ℚ)
    (log_probs : List (List (List ℚ))) (targets : List (List Int))
    (pred_lengths target_lengths : List Nat) (i : Nat) :
    ((ctcContrib nll log_probs targets pred_lengths target_lengths true i).1).isSome =
      true := by
  unfold ctcContrib
  simp

theorem ctcContrib_infeasible_clamped (nll : List (List ℚ) → List Int → ℚ)
    (log_probs : List (List (List ℚ))) (targets : List (List Int))
    (seq_len batch i : Nat) (hi : i < targets.length)
    (hlong : seq_len < countNonzeroRow (targets.getD i [])) :
    (ctcContrib nll log_probs targets (List.replicate batch seq_len)
      (targets.map countNonzeroRow) true i).1 = some 0 := by
  unfold ctcContrib
  have htlen : (targets.map countNonzeroRow).getD i 0 =
      countNonzeroRow (targets.getD i []) := by
    rw [List.getD_eq_getElem?_getD, List.getElem?_map countNonzeroRow targets i,
      List.getElem?_eq_getElem hi, List.getD_eq_getElem?_getD,
      List.getElem?_eq_getElem hi]
    rfl
  have hcle : countNonzeroRow (targets.getD i []) ≤ (targets.getD i []).length :=
    List.length_filter_le _ _
  have hplen : (List.replicate batch seq_len).getD i 0 ≤ seq_len := by
    rw [List.getD_eq_getElem?_getD, List.getElem?_replicate]
    by_cases hib : i < batch
    · rw [if_pos hib]
      simp
    · rw [if_neg hib]
      exact Nat.zero_le _
  have hinfeasible : ctcSampleLoss nll
      (log_probs.map (fun frame => frame.getD i []))
      ((targets.getD i []).take ((targets.map countNonzeroRow).getD i 0))
      ((List.replicate batch seq_len).getD i 0) = none := by
    unfold ctcSampleLoss
    rw [if_pos]
    rw [htlen, List.length_take]
    omega
  rw [htlen] at hinfeasible ⊢
  simp only [hinfeasible]
  rfl

/-- C6: for every prediction tensor `preds` (shape `[N, C, T]`) and target
tensor, the CTC wrapper — which permutes predictions to `[T, N, C]`, uses the
constant `T` as every prediction length, the per-row nonzero count as every
target length, blank `0` and `zero_infinity=True` — always returns a finite
(`some`) loss; and whenever every target row has more nonzero entries than
`T` (every alignment infeasible, loss infinite before clamping) the returned
loss is exactly `some 0`.  Both parts hold for every abstraction `nll` of the
finite per-sample CTC values. -/
theorem ctc_forward_finite_and_clamped (nll : List (List ℚ) → List Int → ℚ)
    (preds : List (List (List ℚ))) (targets : List (List Int))
    (hne : targets ≠ []) :
    (∃ q, CTCLoss.forward nll 0 preds targets = some q) ∧
    ((∀ row ∈ targets, ((preds.getD 0 []).getD 0 []).length < countNonzeroRow row) →
      CTCLoss.forward nll 0 preds targets = some 0) := by
  have hfwd : CTCLoss.forward nll 0 preds targets =
      ctc_loss nll (permute201 preds (((preds.getD 0 []).getD 0 []).length)) targets
        (List.replicate preds.length (((preds.getD 0 []).getD 0 []).length))
        (targets.map countNonzeroRow) 0 true := rfl
  have hall : ((List.range targets.length).map
      (ctcContrib nll (permute201 preds (((preds.getD 0 []).getD 0 []).length)) targets
        (List.replicate preds.length (((preds.getD 0 []).getD 0 []).length))
        (targets.map countNonzeroRow) true)).all (fun p => p.1.isSome) = true := by
    rw [List.all_eq_true]
    intro p hp
    obtain ⟨i, _, rfl⟩ := List.mem_map.mp hp
    exact ctcContrib_isSome _ _ _ _ _ i
  have hloss : CTCLoss.forward nll 0 preds targets =
      some ((((List.range targets.length).map
        (ctcContrib nll (permute201 preds (((preds.getD 0 []).getD 0 []).length)) targets
          (List.replicate preds.length (((preds.getD 0 []).getD 0 []).length))
          (targets.map countNonzeroRow) true)).map
            (fun p => p.1.getD 0 / ((max p.2 1 : Nat) : ℚ))).sum /
        (targets.length : ℚ)) := by
    rw [hfwd]
    unfold ctc_loss
    rw [if_pos hall]
  constructor
  · exact ⟨_, hloss⟩
  · intro hlong
    rw [hloss]
    have hzero : (((List.range targets.length).map
        (ctcContrib nll (permute201 preds (((preds.getD 0 []).getD 0 []).length)) targets
          (List.replicate preds.length (((preds.getD 0 []).getD 0 []).length))
          (targets.map countNonzeroRow) true)).map
            (fun p => p.1.getD 0 / ((max p.2 1 : Nat) : ℚ))).sum = 0 := by
      apply List.sum_eq_zero
      intro x hx
      obtain ⟨p, hp, rfl⟩ := List.mem_map.mp hx
      obtain ⟨i, hi, rfl⟩ := List.mem_map.mp hp
      have hilt : i < targets.length := List.mem_range.mp hi
      have hrow : targets.getD i [] ∈ targets := by
        rw [List.getD_eq_getElem?_getD, List.getElem?_eq_getElem hilt]
        exact List.getElem_mem hilt
      have := ctcContrib_infeasible_clamped nll
        (permute201 preds (((preds.getD 0 []).getD 0 []).length)) targets
        (((preds.getD 0 []).getD 0 []).length) preds.length i hilt
        (hlong _ hrow)
      rw [this]
      simp
    rw [hzero, zero_div]

/-- C6 witness: a `[1, 2, 1]`-shaped prediction (`N=1`, `C=2`, `T=1`) with a
target row of two nonzero codes (`target_length 2 > T = 1`, infeasible
alignment) yields the finite loss `0`. -/
theorem ctc_forward_finite_and_clamped_witness :
    CTCLoss.forward (fun _ _ => 5) 0 [[[1], [2]]] [[1, 1]] = some 0 :=
  (ctc_forward_finite_and_clamped (fun _ _ => 5) [[[1], [2]]] [[1, 1]]
    (by simp)).2 (by decide)

/-! ## C8 -/

theorem foldl_pair_cons_acc (entries : List (Char × Int)) :
    ∀ acc : List (Char × Int),
      entries.foldl (fun d e => (e.1, e.2) :: d) acc = entries.reverse ++ acc := by
  induction entries with
  | nil => intro acc; simp
  | cons e rest ih =>
    intro acc
    simp only [List.foldl_cons, List.reverse_cons, List.append_assoc]
    rw [ih]
    simp

theorem foldl_swap_cons_acc (entries : List (Char × Int)) :
    ∀ acc : List (Int × Char),
      entries.foldl (fun d e => (e.2, e.1) :: d) acc =
        (entries.map Prod.swap).reverse ++ acc := by
  induction entries with
  | nil => intro acc; simp
  | cons e rest ih =>
    intro acc
    simp only [List.foldl_cons, List.map_cons, List.reverse_cons, List.append_assoc]
    rw [ih]
    rfl

theorem charToIntMap_eq (entries : List (Char × Int)) :
    charToIntMap entries = entries.reverse := by
  unfold charToIntMap
  rw [foldl_pair_cons_acc]
  simp

theorem intToCharMap_eq (entries : List (Char × Int)) :
    intToCharMap entries = (entries.map Prod.swap).reverse := by
  unfold intToCharMap
  rw [foldl_swap_cons_acc]
  simp

theorem mem_charToIntMap (entries : List (Char × Int)) (c : Char) (k : Int) :
    (c, k) ∈ charToIntMap entries ↔ (c, k) ∈ entries := by
  rw [charToIntMap_eq, List.mem_reverse]

theorem mem_intToCharMap (entries : List (Char × Int)) (k : Int) (c : Char) :
    (k, c) ∈ intToCharMap entries ↔ (c, k) ∈ entries := by
  rw [intToCharMap_eq, List.mem_reverse, List.mem_map]
  constructor
  · rintro ⟨e, he, hswap⟩
    have h1 : e.2 = k := congrArg Prod.fst hswap
    have h2 : e.1 = c := congrArg Prod.snd hswap
    have : (c, k) = (e.1, e.2) := by rw [h1, h2]
    rw [this]
    simpa using he
  · intro h
    exact ⟨(c, k), h, rfl⟩

/-- C8: for a character-map file whose codes are nonzero (code `0` is the
reserved blank) and are not shared between distinct characters, encoding any
string whose characters all appear in the file with `CodingString` and then
decoding with `DecodeString` built from the same file returns the original
string. -/
theorem encode_decode_roundtrip (entries : List (Char × Int)) (s : List Char)
    (hpos : ∀ e ∈ entries, e.2 ≠ 0)
    (huniq : ∀ e ∈ entries, ∀ e' ∈ entries, e.2 = e'.2 → e.1 = e'.1)
    (hmem : ∀ c ∈ s, ∃ e ∈ entries, e.1 = c) :
    ∃ codes, codingString (charToIntMap entries) s = .ok codes ∧
      decodeString (intToCharMap entries) codes = .ok s := by
  induction s with
  | nil => exact ⟨[], rfl, rfl⟩
  | cons c rest ih =>
    obtain ⟨codes, hc, hd⟩ := ih (fun x hx => hmem x (List.mem_cons_of_mem c hx))
    obtain ⟨e, he, he1⟩ := hmem c (List.mem_cons_self c rest)
    have hck : (c, e.2) ∈ entries := by
      have : (e.1, e.2) ∈ entries := by simpa using he
      rwa [he1] at this
    have hsome : ((charToIntMap entries).lookup c).isSome = true :=
      lookup_isSome_of_mem ((mem_charToIntMap entries c e.2).mpr hck)
    obtain ⟨k, hk⟩ := Option.isSome_iff_exists.mp hsome
    have hkmem : (c, k) ∈ entries := (mem_charToIntMap entries c k).mp (lookup_mem hk)
    have hkne : k ≠ 0 := hpos (c, k) hkmem
    have hsome2 : ((intToCharMap entries).lookup k).isSome = true :=
      lookup_isSome_of_mem ((mem_intToCharMap entries k c).mpr hkmem)
    obtain ⟨c', hc'⟩ := Option.isSome_iff_exists.mp hsome2
    have hc'mem : (c', k) ∈ entries := (mem_intToCharMap entries k c').mp (lookup_mem hc')
    have hcc : c' = c := huniq (c', k) hc'mem (c, k) hkmem rfl
    refine ⟨k :: codes, ?_, ?_⟩
    · simp only [codingString, hk, hc]
    · simp only [decodeString, hkne, hc', hd, hcc, ne_eq, not_false_iff, if_true]

/-- C8 witness: with map `{a:1, b:2, c:3}`, the string "ab" encodes to codes
that decode back to "ab". -/
theorem encode_decode_roundtrip_witness :
    ∃ codes, codingString (charToIntMap [('a', 1), ('b', 2), ('c', 3)]) "ab".toList =
        .ok codes ∧
      decodeString (intToCharMap [('a', 1), ('b', 2), ('c', 3)]) codes =
        .ok "ab".toList :=
  encode_decode_roundtrip [('a', 1), ('b', 2), ('c', 3)] "ab".toList
    (by decide) (by decide) (by decide)

/-! ## C10 -/

/-- C10: `DecodeString` skips exactly the entries equal to `0`: when every
nonzero code is present in the map, the decoded string is, in order, the
image of exactly the nonzero codes (zeros dropped); and when some nonzero
code is absent from the map, decoding raises a lookup (`KeyError`) error
rather than skipping or replacing the code. -/
theorem decodeString_skips_exactly_zeros (m : List (Int × Char)) (codes : List Int) :
    ((∀ k ∈ codes, k ≠ 0 → (m.lookup k).isSome = true) →
      decodeString m codes =
        .ok ((codes.filter (fun k => k ≠ 0)).map (fun k => (m.lookup k).getD 'a'))) ∧
    ((∃ k ∈ codes, k ≠ 0 ∧ m.lookup k = none) →
      decodeString m codes = .error PyError.keyError) := by
  induction codes with
  | nil =>
    constructor
    · intro _; rfl
    · rintro ⟨k, hk, _⟩; simp at hk
  | cons k rest ih =>
    constructor
    · intro hall
      by_cases hk0 : k = 0
      · subst hk0
        have hrest := ih.1 (fun x hx hxne => hall x (List.mem_cons_of_mem _ hx) hxne)
        simpa [decodeString] using hrest
      · have hsome := hall k (List.mem_cons_self k rest) hk0
        obtain ⟨c, hcl⟩ := Option.isSome_iff_exists.mp hsome
        have hrest := ih.1 (fun x hx hxne => hall x (List.mem_cons_of_mem _ hx) hxne)
        simp [decodeString, hk0, hcl, hrest]
    · rintro ⟨k', hk', hne, hnone⟩
      rcases List.mem_cons.mp hk' with rfl | hmem
      · simp [decodeString, hne, hnone]
      · by_cases hk0 : k = 0
        · subst hk0
          have := ih.2 ⟨k', hmem, hne, hnone⟩
          simpa [decodeString] using this
        · cases hkc : m.lookup k with
          | none => simp [decodeString, hk0, hkc]
          | some c =>
            have := ih.2 ⟨k', hmem, hne, hnone⟩
            simp [decodeString, hk0, hkc, this]

/-- C10 witness: codes `[1,0,2]` decode with the zero skipped; codes `[1,5]`
with `5` absent from the map raise the lookup error. -/
theorem decodeString_skips_exactly_zeros_witness :
    decodeString [((1 : Int), 'a'), (2, 'b')] [1, 0, 2] =
      .ok (([1, 0, 2].filter (fun k => k ≠ 0)).map
        (fun k => (List.lookup k [((1 : Int), 'a'), (2, 'b')]).getD 'a')) ∧
    decodeString [((1 : Int), 'a'), (2, 'b')] [1, 5] = .error PyError.keyError :=
  ⟨(decodeString_skips_exactly_zeros [((1 : Int), 'a'), (2, 'b')] [1, 0, 2]).1
      (by decide),
   (decodeString_skips_exactly_zeros [((1 : Int), 'a'), (2, 'b')] [1, 5]).2
      ⟨5, by decide, by decide, by decide⟩⟩

end OCRANN
